import Mathlib

/-!
Shallow embedding of the ZGC compiled-method (nmethod) integration layer
declared in `src/hotspot/share/gc/z/zNMethod.hpp`, together with the ADLC
`assert` macro from `src/hotspot/share/adlc/adlc.hpp`.

The repository snapshot contains only the `ZNMethod` header (declarations);
the definitions of its member functions are not part of the snapshot, so the
behavioural model below is built from the specification document, faithfully
following its words.  Every such definition carries a doc comment starting
with `Modelled from the spec:`.  The ADLC `assert` macro, by contrast, is
present in full in the source and is embedded from the source text.
-/

namespace ZNMethod

/-- Modelled from the spec: lifecycle state of a compiled method,
`Registered → Unlinked → Purged` (terminal).  The implementation of the
transitions (zNMethod.cpp) is missing from the snapshot. -/
inductive Lifecycle where
  | Registered
  | Unlinked
  | Purged
deriving DecidableEq, Repr

/-- Modelled from the spec: the reference kind of a slot,
kind ∈ \x7bstrong, weak, phantom\x7d. -/
inductive RefKind where
  | strong
  | weak
  | phantom
deriving DecidableEq, Repr

/-- Modelled from the spec: a `ReferenceSlot` — offset within the code
buffer, reference kind, and the colored address currently stored there
(raw heap address tagged with the color epoch it was last validated
against). -/
structure ReferenceSlot where
  offset : Nat
  kind : RefKind
  rawAddr : Nat
  colorEpoch : Nat
deriving DecidableEq, Repr

/-- Modelled from the spec: reachability classification of a heap object,
as observed by the collector (strongly reachable, weakly reachable,
phantom-reachable, or unreachable / being finalized). -/
inductive Reach where
  | strongR
  | weakR
  | phantomR
  | unreachable
deriving DecidableEq, Repr

/-- Modelled from the spec: the reachability state of the heap — every
address carries a current reachability classification. -/
def Heap : Type := Nat → Reach

/-- Modelled from the spec: keep-alive promotion — the referenced object
becomes strongly reachable for the remainder of the current collector
phase. -/
def promote (h : Heap) (a : Nat) : Heap :=
  fun x => if x = a then Reach.strongR else h x

/-- Modelled from the spec: `oop_load(nm, index, keep_alive)` — reads the
reference stored in a slot; when `keep_alive` is true the load promotes the
referenced object to strongly-reachable, when false the load has no
reachability side effect.  Returns the loaded reference and the resulting
heap reachability state.  The implementation (zNMethod.cpp) is missing from
the snapshot. -/
def oop_load (h : Heap) (s : ReferenceSlot) (keep_alive : Bool) : Nat × Heap :=
  (s.rawAddr, if keep_alive then promote h s.rawAddr else h)

/-- Modelled from the spec: `oop_load_no_keepalive(nm, index)` — reads the
reference stored in a slot with no reachability side effect at all.  The
implementation is missing from the snapshot. -/
def oop_load_no_keepalive (h : Heap) (s : ReferenceSlot) : Nat × Heap :=
  (s.rawAddr, h)

/-- Modelled from the spec: `oop_load_phantom(nm, index)` — returns the
stored reference even when the target is already being finalized or
cleared, without promoting it: the heap reachability state is untouched.
The implementation is missing from the snapshot. -/
def oop_load_phantom (h : Heap) (s : ReferenceSlot) : Nat × Heap :=
  (s.rawAddr, h)

/-- Modelled from the spec: per-method GC metadata held by the registry —
identity, partition tag (the `secondary` flag of `nmethods_do`), the
ordered slot sequence, the current color epoch, the raw armed/disarmed
guard value, the lifecycle state, whether an inline-cache patch is still
outstanding, and the stable lock-arena indices for the method lock and the
inline-cache lock.  The implementation is missing from the snapshot. -/
structure CompiledMethod where
  id : Nat
  secondary : Bool
  slots : List ReferenceSlot
  colorEpoch : Nat
  guard : Nat
  state : Lifecycle
  icPatchPending : Bool
  lockId : Nat
  icLockId : Nat
deriving DecidableEq, Repr

/-- Modelled from the spec: the guard value denoting the Disarmed state;
any other raw guard value means Armed. -/
def disarmedGuard : Nat := 0

/-- Modelled from the spec: `is_armed(nm)` — whether the entry barrier of
the method is currently armed.  The implementation is missing from the
snapshot. -/
def is_armed (m : CompiledMethod) : Bool :=
  m.guard != disarmedGuard

/-- Modelled from the spec: `disarm(nm)` — transition Armed → Disarmed;
repeated calls after the first are no-ops with no guard-value change.  The
implementation is missing from the snapshot. -/
def disarm (m : CompiledMethod) : CompiledMethod :=
  { m with guard := disarmedGuard }

/-- Modelled from the spec: `set_guard_value(nm, value)` — directly sets
the raw guard value; used to force Armed ahead of the next epoch
transition.  The implementation is missing from the snapshot. -/
def set_guard_value (m : CompiledMethod) (v : Nat) : CompiledMethod :=
  { m with guard := v }

/-- Modelled from the spec: re-coloring one slot via the Codec to a given
epoch. -/
def recolorSlot (e : Nat) (s : ReferenceSlot) : ReferenceSlot :=
  { s with colorEpoch := e }

/-- Modelled from the spec: `color(nm)` — the color epoch currently stamped
on the method's slots.  The implementation is missing from the snapshot. -/
def color (m : CompiledMethod) : Nat :=
  m.colorEpoch

/-- Modelled from the spec: the entry-barrier trip repair — on calling into
an Armed method the running thread re-colors every slot via the Codec to
the current epoch, applies any outstanding inline-cache patch, then calls
`disarm`; a thread arriving at a Disarmed method proceeds without repair.
The implementation is missing from the snapshot. -/
def barrier_trip (e : Nat) (m : CompiledMethod) : CompiledMethod :=
  if is_armed m then
    disarm { m with
              slots := m.slots.map (recolorSlot e),
              colorEpoch := e,
              icPatchPending := false }
  else
    m

/-- Modelled from the spec: `purge` acting on one method — reclaims the
registry slot of a method in Unlinked state, transitioning it to Purged;
calling it on a method still Registered, or a second time on the same
method, is a contract violation (fatal), modelled as `Except.error`.  The
implementation is missing from the snapshot. -/
def purge_nmethod (m : CompiledMethod) : Except Unit CompiledMethod :=
  match m.state with
  | Lifecycle.Unlinked => Except.ok { m with state := Lifecycle.Purged }
  | _ => Except.error ()

/-- Modelled from the spec: `lock_for_nmethod(nm)` — returns the stable
lock instance of the method while it is Registered or Unlinked; fatal
(contract violation, modelled as `Except.error`) once Purged.  The
implementation is missing from the snapshot. -/
def lock_for_nmethod (m : CompiledMethod) : Except Unit Nat :=
  match m.state with
  | Lifecycle.Purged => Except.error ()
  | _ => Except.ok m.lockId

/-- Modelled from the spec: `ic_lock_for_nmethod(nm)` — returns the stable
inline-cache lock instance of the method while it is Registered or
Unlinked; fatal once Purged.  The implementation is missing from the
snapshot. -/
def ic_lock_for_nmethod (m : CompiledMethod) : Except Unit Nat :=
  match m.state with
  | Lifecycle.Purged => Except.error ()
  | _ => Except.ok m.icLockId

/-- Modelled from the spec: an `IterationSession` — ephemeral value
bracketing one begin/end pair over one partition; carries the session id
and the membership snapshot taken at `nmethods_do_begin` time. -/
structure Session where
  sid : Nat
  members : List Nat
deriving DecidableEq, Repr

/-- Modelled from the spec: the global state of the registry — the
process-wide epoch counter, the list of methods with attached GC metadata,
the (at most one) open iteration session per partition, the next session
id, and the next free lock-arena index.  The implementation is missing from
the snapshot. -/
structure SysState where
  epoch : Nat
  methods : List CompiledMethod
  openPrimary : Option Session
  openSecondary : Option Session
  nextSessionId : Nat
  nextLockId : Nat
deriving DecidableEq, Repr

/-- The open session of the partition selected by the `secondary` flag. -/
def openOf (st : SysState) (sec : Bool) : Option Session :=
  if sec then st.openSecondary else st.openPrimary

/-- Read-only registry lookup by method identity. -/
def lookupMethod (st : SysState) (i : Nat) : Option CompiledMethod :=
  st.methods.find? (fun m => m.id = i)

/-- Modelled from the spec: the identities of the methods of one partition
that are currently Registered — exactly the members a session snapshot
takes at `nmethods_do_begin` time. -/
def registeredIds (st : SysState) (sec : Bool) : List Nat :=
  (st.methods.filter
    (fun m => m.secondary = sec ∧ m.state = Lifecycle.Registered)).map
    (fun m => m.id)

/-- Modelled from the spec: `register_nmethod(nm)` — attaches GC metadata
to a freshly compiled method; fatal (contract violation, modelled as
`Except.error`) if called twice for the same identity.  Sets state =
Registered, guard = armed, color epoch = stale (older than the global
epoch), and assigns the next stable lock-arena indices.  The implementation
is missing from the snapshot. -/
def register_nmethod (st : SysState) (i : Nat) (sec : Bool)
    (slots : List ReferenceSlot) : Except Unit SysState :=
  if st.methods.any (fun m => m.id = i) then
    Except.error ()
  else
    Except.ok { st with
      methods := { id := i
                   secondary := sec
                   slots := slots
                   colorEpoch := st.epoch - 1
                   guard := 1
                   state := Lifecycle.Registered
                   icPatchPending := false
                   lockId := st.nextLockId
                   icLockId := st.nextLockId + 1 } :: st.methods,
      nextLockId := st.nextLockId + 2 }

/-- Modelled from the spec: the collector driver advancing the process-wide
epoch counter, exactly once per phase transition, never decremented. -/
def advance_epoch (st : SysState) : SysState :=
  { st with epoch := st.epoch + 1 }

/-- Modelled from the spec: an application thread tripping the entry
barrier of the method with the given identity — the repair of
`barrier_trip` runs against the current global epoch. -/
def trip_barrier (st : SysState) (i : Nat) : SysState :=
  { st with
    methods := st.methods.map
      (fun m => if m.id = i then barrier_trip st.epoch m else m) }

/-- Modelled from the spec: `nmethods_do_begin(secondary)` — takes a stable
snapshot boundary: any method of the partition already Registered at the
moment of the call is a member of the session; fatal (contract violation,
modelled as `Except.error`) if a session is already open for that
partition.  The implementation is missing from the snapshot. -/
def nmethods_do_begin (st : SysState) (sec : Bool) : Except Unit SysState :=
  match openOf st sec with
  | some _ => Except.error ()
  | none =>
    let s : Session := { sid := st.nextSessionId, members := registeredIds st sec }
    if sec then
      Except.ok { st with openSecondary := some s,
                          nextSessionId := st.nextSessionId + 1 }
    else
      Except.ok { st with openPrimary := some s,
                          nextSessionId := st.nextSessionId + 1 }

/-- Modelled from the spec: `nmethods_do_end(secondary)` — closes the
bracket; fatal if the given session id does not match the currently open
one for the partition (detects double-end or end-without-begin).  The
implementation is missing from the snapshot. -/
def nmethods_do_end (st : SysState) (sec : Bool) (sid : Nat) :
    Except Unit SysState :=
  match openOf st sec with
  | none => Except.error ()
  | some s =>
    if s.sid = sid then
      if sec then Except.ok { st with openSecondary := none }
      else Except.ok { st with openPrimary := none }
    else
      Except.error ()

/-- Modelled from the spec: `nmethods_do(secondary, cl)` — the identities
the visitor is invoked on inside the open session of the partition: exactly
the membership snapshot taken at `nmethods_do_begin`.  The implementation
is missing from the snapshot. -/
def nmethods_do (st : SysState) (sec : Bool) : List Nat :=
  match openOf st sec with
  | some s => s.members
  | none => []

/-- Modelled from the spec: `unlink(workers, unloading_occurred)` — a pass
over the full registry; when `unloading_occurred` is true, every Registered
method the external reachability analysis marks dead transitions to
Unlinked; when false, the cheaper pass skips reachability analysis and no
lifecycle transition happens.  The implementation is missing from the
snapshot. -/
def unlink (st : SysState) (unloading_occurred : Bool) (dead : Nat → Bool) :
    SysState :=
  { st with
    methods := st.methods.map
      (fun m =>
        if unloading_occurred ∧ dead m.id ∧ m.state = Lifecycle.Registered then
          { m with state := Lifecycle.Unlinked }
        else m) }

end ZNMethod

namespace Adlc

/-- Outcome of the ADLC `assert` macro: either execution continues past the
assertion, or the process aborts after printing one line to stderr. -/
inductive AssertOutcome where
  | continued
  | abortedWith (stderrLine : String)
deriving DecidableEq, Repr

/-- The stderr line printed by the ADLC `assert` macro before `abort()`:
`fprintf(stderr, "assert fails %s %d: %s\n", __FILE__, __LINE__, msg)`. -/
def assertFailLine (file : String) (line : Nat) (msg : String) : String :=
  "assert fails " ++ file ++ " " ++ toString line ++ ": " ++ msg ++ "\n"

/-- The ADLC `assert(cond, msg)` macro from adlc.hpp:
`\x7b if (!(cond)) \x7b fprintf(stderr, ...); abort(); \x7d \x7d` —
if the condition is false it prints the failure line and aborts, otherwise
it does nothing. -/
def adlcAssert (cond : Bool) (file : String) (line : Nat) (msg : String) :
    AssertOutcome :=
  if !cond then
    AssertOutcome.abortedWith (assertFailLine file line msg)
  else
    AssertOutcome.continued

end Adlc

namespace ZNMethod

/-- Concrete fixture: a method in Unlinked state. -/
def wUnlinked : CompiledMethod :=
  { id := 1, secondary := false, slots := [], colorEpoch := 0, guard := 0,
    state := Lifecycle.Unlinked, icPatchPending := false, lockId := 0,
    icLockId := 1 }

/-- Concrete fixture: the result of purging `wUnlinked`. -/
def wPurged : CompiledMethod :=
  { wUnlinked with state := Lifecycle.Purged }

/-- Concrete fixture: a freshly registered (armed) method. -/
def wReg : CompiledMethod :=
  { id := 2, secondary := false, slots := [], colorEpoch := 0, guard := 1,
    state := Lifecycle.Registered, icPatchPending := false, lockId := 2,
    icLockId := 3 }

/-- Concrete fixture: an empty registry at epoch 1. -/
def wSt0 : SysState :=
  { epoch := 1, methods := [], openPrimary := none, openSecondary := none,
    nextSessionId := 0, nextLockId := 0 }

/-- Concrete fixture: two reference slots for method A of the C4
scenario. -/
def wSlots2 : List ReferenceSlot :=
  [{ offset := 0, kind := RefKind.strong, rawAddr := 100, colorEpoch := 0 },
   { offset := 8, kind := RefKind.weak, rawAddr := 200, colorEpoch := 0 }]

/-- Concrete fixture: the registry after registering method 7 with two
slots into `wSt0`. -/
def wStA : SysState :=
  { wSt0 with
    methods := [{ id := 7, secondary := false, slots := wSlots2,
                  colorEpoch := 0, guard := 1,
                  state := Lifecycle.Registered, icPatchPending := false,
                  lockId := 0, icLockId := 1 }],
    nextLockId := 2 }

/-- Concrete fixture: `wSt0` with a primary session just opened. -/
def wB1 : SysState :=
  { wSt0 with openPrimary := some { sid := 0, members := [] },
              nextSessionId := 1 }

/-- Concrete fixture: the method registered during the open session. -/
def wRegNew : CompiledMethod :=
  { id := 7, secondary := false, slots := [], colorEpoch := 0, guard := 1,
    state := Lifecycle.Registered, icPatchPending := false, lockId := 0,
    icLockId := 1 }

/-- Concrete fixture: `wB1` after registering method 7 mid-session. -/
def wB2 : SysState :=
  { wB1 with methods := [wRegNew], nextLockId := 2 }

/-- Concrete fixture: `wB2` after ending the primary session. -/
def wB3 : SysState :=
  { wB2 with openPrimary := none }

/-- Concrete fixture: `wB3` with the next primary session opened. -/
def wB4 : SysState :=
  { wB3 with openPrimary := some { sid := 1, members := [7] },
             nextSessionId := 2 }

end ZNMethod

open ZNMethod Adlc

/-- C3: `disarm` is idempotent — for a registered method, disarming twice
in a row leaves the whole method (in particular its guard value) identical
to the state after the first call. -/
theorem disarm_idempotent (m : CompiledMethod)
    (_h : m.state = Lifecycle.Registered) :
    disarm (disarm m) = disarm m ∧
    (disarm (disarm m)).guard = (disarm m).guard :=
  ⟨rfl, rfl⟩

/-- Witness for C3 at a concrete registered method. -/
theorem disarm_idempotent_witness :
    disarm (disarm wReg) = disarm wReg ∧
    (disarm (disarm wReg)).guard = (disarm wReg).guard :=
  disarm_idempotent wReg rfl

/-- C5: `purge` on a method fails exactly when the method is not in
Unlinked state (in particular on a still-Registered method); when it
succeeds the method was Unlinked and becomes Purged, and a second purge of
the result fails (double-free contract violation). -/
theorem purge_contract (m m' : CompiledMethod) :
    (purge_nmethod m = Except.error () ↔ m.state ≠ Lifecycle.Unlinked) ∧
    (purge_nmethod m = Except.ok m' →
      m.state = Lifecycle.Unlinked ∧ m'.state = Lifecycle.Purged ∧
      purge_nmethod m' = Except.error ()) := by
  refine ⟨?_, fun h => ?_⟩
  · cases hs : m.state <;> simp [purge_nmethod, hs]
  · cases hs : m.state <;> simp only [purge_nmethod, hs] at h
    · exact Except.noConfusion h
    · injection h with h2
      subst h2
      exact ⟨hs ▸ rfl, rfl, rfl⟩
    · exact Except.noConfusion h

/-- Witness for C5: purging a concrete Unlinked method yields a Purged
method, and purging that again fails. -/
theorem purge_contract_witness :
    (purge_nmethod wUnlinked = Except.error () ↔
      wUnlinked.state ≠ Lifecycle.Unlinked) ∧
    (wUnlinked.state = Lifecycle.Unlinked ∧
      wPurged.state = Lifecycle.Purged ∧
      purge_nmethod wPurged = Except.error ()) :=
  ⟨(purge_contract wUnlinked wPurged).1,
   (purge_contract wUnlinked wPurged).2 rfl⟩

/-- C6: `oop_load_no_keepalive` is extensionally equal to `oop_load` with
`keep_alive := false`, and has no reachability side effect. -/
theorem oop_load_no_keepalive_eq (h : Heap) (s : ReferenceSlot) :
    oop_load_no_keepalive h s = oop_load h s false ∧
    (oop_load_no_keepalive h s).2 = h :=
  ⟨rfl, rfl⟩

/-- C7: `oop_load_phantom` on a slot whose target is unreachable still
returns the stored reference, changes no reachability classification, and
in particular leaves the target unreachable (no resurrection). -/
theorem oop_load_phantom_no_resurrect (h : Heap) (s : ReferenceSlot)
    (hu : h s.rawAddr = Reach.unreachable) :
    (oop_load_phantom h s).1 = s.rawAddr ∧
    (∀ a, (oop_load_phantom h s).2 a = h a) ∧
    (oop_load_phantom h s).2 s.rawAddr = Reach.unreachable :=
  ⟨rfl, fun _ => rfl, hu⟩

/-- Witness for C7 at a concrete heap where the target is unreachable. -/
theorem oop_load_phantom_no_resurrect_witness :
    (oop_load_phantom (fun _ => Reach.unreachable)
      { offset := 0, kind := RefKind.phantom, rawAddr := 7, colorEpoch := 0 }).1 = 7 ∧
    (∀ a, (oop_load_phantom (fun _ => Reach.unreachable)
      { offset := 0, kind := RefKind.phantom, rawAddr := 7, colorEpoch := 0 }).2 a =
        (fun _ => Reach.unreachable : Heap) a) ∧
    (oop_load_phantom (fun _ => Reach.unreachable)
      { offset := 0, kind := RefKind.phantom, rawAddr := 7, colorEpoch := 0 }).2 7 =
      Reach.unreachable :=
  oop_load_phantom_no_resurrect (fun _ => Reach.unreachable)
    { offset := 0, kind := RefKind.phantom, rawAddr := 7, colorEpoch := 0 } rfl

/-- Helper: the barrier-trip repair never changes the lifecycle state. -/
lemma barrier_trip_state (e : Nat) (m : CompiledMethod) :
    (barrier_trip e m).state = m.state := by
  unfold barrier_trip; split <;> rfl

/-- Helper: the barrier-trip repair never changes the method identity. -/
lemma barrier_trip_id (e : Nat) (m : CompiledMethod) :
    (barrier_trip e m).id = m.id := by
  unfold barrier_trip; split <;> rfl

/-- Helper: the barrier-trip repair never changes the lock index. -/
lemma barrier_trip_lockId (e : Nat) (m : CompiledMethod) :
    (barrier_trip e m).lockId = m.lockId := by
  unfold barrier_trip; split <;> rfl

/-- Helper: the barrier-trip repair never changes the IC lock index. -/
lemma barrier_trip_icLockId (e : Nat) (m : CompiledMethod) :
    (barrier_trip e m).icLockId = m.icLockId := by
  unfold barrier_trip; split <;> rfl

/-- Helper: the method lock of a non-Purged method is its stable arena
index. -/
lemma lock_for_of_not_purged (m : CompiledMethod)
    (h : m.state ≠ Lifecycle.Purged) :
    lock_for_nmethod m = Except.ok m.lockId := by
  cases hs : m.state <;> first
    | exact absurd hs (hs ▸ h)
    | simp [lock_for_nmethod, hs]

/-- Helper: the IC lock of a non-Purged method is its stable arena
index. -/
lemma ic_lock_for_of_not_purged (m : CompiledMethod)
    (h : m.state ≠ Lifecycle.Purged) :
    ic_lock_for_nmethod m = Except.ok m.icLockId := by
  cases hs : m.state <;> first
    | exact absurd hs (hs ▸ h)
    | simp [ic_lock_for_nmethod, hs]

/-- C9: while a method is not Purged, `lock_for_nmethod` and
`ic_lock_for_nmethod` return its stable lock indices, and the guard / trip
/ unlink mutations leave the returned lock unchanged; on a Purged method —
in particular right after a successful purge — both lock accessors are a
contract violation. -/
theorem lock_for_stable (m m' : CompiledMethod) (v e : Nat) :
    (m.state ≠ Lifecycle.Purged →
      lock_for_nmethod m = Except.ok m.lockId ∧
      ic_lock_for_nmethod m = Except.ok m.icLockId ∧
      lock_for_nmethod (disarm m) = lock_for_nmethod m ∧
      lock_for_nmethod (set_guard_value m v) = lock_for_nmethod m ∧
      lock_for_nmethod (barrier_trip e m) = lock_for_nmethod m ∧
      ic_lock_for_nmethod (barrier_trip e m) = ic_lock_for_nmethod m ∧
      lock_for_nmethod { m with state := Lifecycle.Unlinked } =
        Except.ok m.lockId) ∧
    (m.state = Lifecycle.Purged →
      lock_for_nmethod m = Except.error () ∧
      ic_lock_for_nmethod m = Except.error ()) ∧
    (purge_nmethod m = Except.ok m' →
      lock_for_nmethod m' = Except.error () ∧
      ic_lock_for_nmethod m' = Except.error ()) := by
  refine ⟨fun hne => ?_, fun hp => ?_, fun hp => ?_⟩
  · have hs : (disarm m).state = m.state := rfl
    have hg : (set_guard_value m v).state = m.state := rfl
    refine ⟨lock_for_of_not_purged m hne, ic_lock_for_of_not_purged m hne,
            ?_, ?_, ?_, ?_, ?_⟩
    · rw [lock_for_of_not_purged _ (hs ▸ hne), lock_for_of_not_purged m hne]
      rfl
    · rw [lock_for_of_not_purged _ (hg ▸ hne), lock_for_of_not_purged m hne]
      rfl
    · rw [lock_for_of_not_purged _ ((barrier_trip_state e m) ▸ hne),
          lock_for_of_not_purged m hne, barrier_trip_lockId]
    · rw [ic_lock_for_of_not_purged _ ((barrier_trip_state e m) ▸ hne),
          ic_lock_for_of_not_purged m hne, barrier_trip_icLockId]
    · exact lock_for_of_not_purged _ (by simp)
  · simp [lock_for_nmethod, ic_lock_for_nmethod, hp]
  · cases hs : m.state <;> simp only [purge_nmethod, hs] at hp
    · exact Except.noConfusion hp
    · injection hp with h2
      subst h2
      exact ⟨rfl, rfl⟩
    · exact Except.noConfusion hp

/-- Witness for C9: concrete lock lookups on a Registered method and on
the Purged result of a concrete purge. -/
theorem lock_for_stable_witness :
    lock_for_nmethod wReg = Except.ok wReg.lockId ∧
    (lock_for_nmethod wPurged = Except.error () ∧
      ic_lock_for_nmethod wPurged = Except.error ()) :=
  ⟨((lock_for_stable wReg wReg 0 0).1 (by decide)).1,
   (lock_for_stable wUnlinked wPurged 0 0).2.2 rfl⟩

/-- C2: immediately after a successful `register_nmethod`, the method is
found in the registry, `is_armed` holds, the lifecycle state is Registered,
and the color epoch is stale — strictly older than the global epoch. -/
theorem register_initial_state (st st' : SysState) (i : Nat) (sec : Bool)
    (slots : List ReferenceSlot) (hep : 0 < st.epoch)
    (hreg : register_nmethod st i sec slots = Except.ok st') :
    ∃ m, lookupMethod st' i = some m ∧ is_armed m = true ∧
      m.state = Lifecycle.Registered ∧ m.colorEpoch < st'.epoch := by
  unfold register_nmethod at hreg
  split at hreg
  · exact Except.noConfusion hreg
  · injection hreg with h2
    subst h2
    exact ⟨{ id := i, secondary := sec, slots := slots,
             colorEpoch := st.epoch - 1, guard := 1,
             state := Lifecycle.Registered, icPatchPending := false,
             lockId := st.nextLockId, icLockId := st.nextLockId + 1 },
           List.find?_cons_of_pos _ (by simp), rfl, rfl,
           Nat.sub_lt hep Nat.one_pos⟩

/-- Witness for C2: registering method 7 into the empty registry at epoch
1 yields an armed, Registered method with a stale color epoch. -/
theorem register_initial_state_witness :
    ∃ m, lookupMethod
        { wSt0 with
          methods := [{ id := 7, secondary := false, slots := [],
                        colorEpoch := 0, guard := 1,
                        state := Lifecycle.Registered,
                        icPatchPending := false, lockId := 0, icLockId := 1 }],
          nextLockId := 2 } 7 = some m ∧
      is_armed m = true ∧ m.state = Lifecycle.Registered ∧
      m.colorEpoch <
        (SysState.epoch
          { wSt0 with
            methods := [{ id := 7, secondary := false, slots := [],
                          colorEpoch := 0, guard := 1,
                          state := Lifecycle.Registered,
                          icPatchPending := false, lockId := 0,
                          icLockId := 1 }],
            nextLockId := 2 }) :=
  register_initial_state wSt0 _ 7 false [] (by decide) rfl

/-- C8: `nmethods_do_begin` succeeds exactly when no session is open for
the partition (a session already open is a fatal contract violation), and
`nmethods_do_end` succeeds exactly when the given session id matches the
currently open session of the partition (detecting double-end and
end-without-begin). -/
theorem session_bracket_contract (st : SysState) (sec : Bool) (sid : Nat) :
    ((∃ st', nmethods_do_begin st sec = Except.ok st') ↔
      openOf st sec = none) ∧
    ((∃ st', nmethods_do_end st sec sid = Except.ok st') ↔
      ∃ s, openOf st sec = some s ∧ s.sid = sid) := by
  constructor
  · cases hop : openOf st sec
    · simp only [nmethods_do_begin, hop]
      cases sec <;> simp
    · simp only [nmethods_do_begin, hop]
      simp
  · cases hop : openOf st sec
    · simp only [nmethods_do_end, hop]
      simp
    · rename_i s
      simp only [nmethods_do_end, hop]
      by_cases hsid : s.sid = sid
      · cases sec <;> simp [hsid]
      · simp [hsid]

/-- C10: the ADLC `assert(cond, msg)` macro aborts — printing the file,
line and message to stderr — exactly when the condition is false, and
continues with no effect exactly when it is true. -/
theorem adlcAssert_abort_iff (cond : Bool) (file : String) (line : Nat)
    (msg : String) :
    (adlcAssert cond file line msg =
      AssertOutcome.abortedWith (assertFailLine file line msg) ↔
      cond = false) ∧
    (adlcAssert cond file line msg = AssertOutcome.continued ↔ cond = true) := by
  cases cond <;> simp [adlcAssert]

/-- C4: registering a method arms its entry barrier; after the global
epoch is advanced and the barrier is tripped, the repair has run — every
slot re-colored to the current global epoch, the outstanding IC patch
applied, the method disarmed — so `is_armed` is false and `color` equals
the current global epoch. -/
theorem barrier_trip_repair (st st1 : SysState) (i : Nat) (sec : Bool)
    (slots : List ReferenceSlot)
    (hreg : register_nmethod st i sec slots = Except.ok st1) :
    (∃ m, lookupMethod st1 i = some m ∧ is_armed m = true) ∧
    (∃ m, lookupMethod (trip_barrier (advance_epoch st1) i) i = some m ∧
      is_armed m = false ∧
      color m = (advance_epoch st1).epoch ∧
      (∀ t ∈ m.slots, t.colorEpoch = (advance_epoch st1).epoch) ∧
      m.icPatchPending = false) := by
  unfold register_nmethod at hreg
  split at hreg
  · exact Except.noConfusion hreg
  · injection hreg with h2
    subst h2
    refine ⟨⟨_, List.find?_cons_of_pos _ (by simp), rfl⟩, ?_⟩
    refine ⟨{ id := i, secondary := sec,
              slots := slots.map (recolorSlot (st.epoch + 1)),
              colorEpoch := st.epoch + 1, guard := disarmedGuard,
              state := Lifecycle.Registered, icPatchPending := false,
              lockId := st.nextLockId, icLockId := st.nextLockId + 1 },
            ?_, rfl, rfl, ?_, rfl⟩
    · simp [lookupMethod, trip_barrier, advance_epoch, barrier_trip,
            is_armed, disarm, disarmedGuard, recolorSlot,
            List.find?_cons_of_pos]
    · intro t ht
      simp only [List.mem_map] at ht
      obtain ⟨u, -, rfl⟩ := ht
      rfl

/-- Witness for C4: the scenario run concretely — method 7 with two slots
registered at epoch 1, epoch advanced to 2, barrier tripped. -/
theorem barrier_trip_repair_witness :
    (∃ m, lookupMethod wStA 7 = some m ∧ is_armed m = true) ∧
    (∃ m, lookupMethod (trip_barrier (advance_epoch wStA) 7) 7 = some m ∧
      is_armed m = false ∧
      color m = (advance_epoch wStA).epoch ∧
      (∀ t ∈ m.slots, t.colorEpoch = (advance_epoch wStA).epoch) ∧
      m.icPatchPending = false) :=
  barrier_trip_repair wSt0 wStA 7 false wSlots2 rfl

/-- Helper: a successful `nmethods_do_begin` keeps the registry and opens
the session whose members are the partition's Registered methods. -/
lemma begin_ok_spec (st st' : SysState) (sec : Bool)
    (h : nmethods_do_begin st sec = Except.ok st') :
    st'.methods = st.methods ∧
    openOf st' sec =
      some { sid := st.nextSessionId, members := registeredIds st sec } := by
  unfold nmethods_do_begin at h
  cases hop : openOf st sec <;> rw [hop] at h
  · cases sec
    · injection h with h2
      subst h2
      exact ⟨rfl, rfl⟩
    · injection h with h2
      subst h2
      exact ⟨rfl, rfl⟩
  · exact Except.noConfusion h

/-- Helper: a successful `register_nmethod` records exactly one new
method, the identity was fresh, and the open sessions are untouched. -/
lemma register_ok_spec (st st' : SysState) (i : Nat) (sec : Bool)
    (slots : List ReferenceSlot)
    (h : register_nmethod st i sec slots = Except.ok st') :
    (∀ m ∈ st.methods, m.id ≠ i) ∧
    st'.methods =
      { id := i, secondary := sec, slots := slots,
        colorEpoch := st.epoch - 1, guard := 1,
        state := Lifecycle.Registered, icPatchPending := false,
        lockId := st.nextLockId,
        icLockId := st.nextLockId + 1 } :: st.methods ∧
    st'.openPrimary = st.openPrimary ∧
    st'.openSecondary = st.openSecondary := by
  unfold register_nmethod at h
  split at h
  · exact Except.noConfusion h
  · rename_i hany
    injection h with h2
    subst h2
    refine ⟨?_, rfl, rfl, rfl⟩
    intro m hm hmi
    exact hany (List.any_eq_true.mpr ⟨m, hm, by simp [hmi]⟩)

/-- Helper: a successful `nmethods_do_end` keeps the registry and closes
the partition's session. -/
lemma end_ok_spec (st st' : SysState) (sec : Bool) (sid : Nat)
    (h : nmethods_do_end st sec sid = Except.ok st') :
    st'.methods = st.methods ∧ openOf st' sec = none := by
  unfold nmethods_do_end at h
  split at h
  · exact Except.noConfusion h
  · split at h
    · cases sec
      · injection h with h2
        subst h2
        exact ⟨rfl, rfl⟩
      · injection h with h2
        subst h2
        exact ⟨rfl, rfl⟩
    · exact Except.noConfusion h

/-- C1: across a begin/register/end/begin run over one partition, the
method registered strictly inside the first session is not visited in that
session but is visited in the very next session of the partition, and
every member present at the first `nmethods_do_begin` is visited exactly
once in that session. -/
theorem session_snapshot_visits (st st1 st2 st3 st4 : SysState) (sec : Bool)
    (i sid : Nat) (slots : List ReferenceSlot)
    (hnodup : (st.methods.map (fun m => m.id)).Nodup)
    (hb1 : nmethods_do_begin st sec = Except.ok st1)
    (hr : register_nmethod st1 i sec slots = Except.ok st2)
    (he : nmethods_do_end st2 sec sid = Except.ok st3)
    (hb2 : nmethods_do_begin st3 sec = Except.ok st4) :
    i ∉ nmethods_do st2 sec ∧
    i ∈ nmethods_do st4 sec ∧
    ∀ j ∈ nmethods_do st1 sec, (nmethods_do st1 sec).count j = 1 := by
  obtain ⟨hm1, hop1⟩ := begin_ok_spec st st1 sec hb1
  obtain ⟨hfresh, hm2, hp2, hs2⟩ := register_ok_spec st1 st2 i sec slots hr
  obtain ⟨hm3, -⟩ := end_ok_spec st2 st3 sec sid he
  obtain ⟨hm4, hop4⟩ := begin_ok_spec st3 st4 sec hb2
  have hop2 : openOf st2 sec = openOf st1 sec := by
    cases sec
    · simpa [openOf] using hp2
    · simpa [openOf] using hs2
  refine ⟨?_, ?_, ?_⟩
  · simp only [nmethods_do, hop2, hop1]
    intro hmem
    simp only [registeredIds, List.mem_map, List.mem_filter] at hmem
    obtain ⟨m, ⟨hmm, -⟩, hid⟩ := hmem
    exact hfresh m (hm1 ▸ hmm) hid
  · simp only [nmethods_do, hop4]
    have hmem3 : ({ id := i, secondary := sec, slots := slots,
                    colorEpoch := st1.epoch - 1, guard := 1,
                    state := Lifecycle.Registered, icPatchPending := false,
                    lockId := st1.nextLockId,
                    icLockId := st1.nextLockId + 1 } : CompiledMethod) ∈
        st3.methods := by
      rw [hm3, hm2]
      exact List.mem_cons_self _ _
    exact List.mem_map.mpr
      ⟨_, List.mem_filter.mpr ⟨hmem3, by simp⟩, rfl⟩
  · simp only [nmethods_do, hop1]
    intro j hj
    have hnd : (registeredIds st sec).Nodup := by
      have hsub : (registeredIds st sec).Sublist
          (st.methods.map (fun m => m.id)) := by
        unfold registeredIds
        exact List.Sublist.map (fun m => m.id) (List.filter_sublist st.methods)
      exact hnodup.sublist hsub
    exact List.count_eq_one_of_mem hnd hj

/-- Witness for C1: the begin/register/end/begin run executed concretely
on the empty registry. -/
theorem session_snapshot_visits_witness :
    7 ∉ nmethods_do wB2 false ∧
    7 ∈ nmethods_do wB4 false ∧
    ∀ j ∈ nmethods_do wB1 false, (nmethods_do wB1 false).count j = 1 :=
  session_snapshot_visits wSt0 wB1 wB2 wB3 wB4 false 7 0 []
    (by decide) rfl rfl rfl rfl
